import Mathlib

/-
Verification of the LiDAR object-detection script
`src/ObjDetection/LIDARSpawnAndObjDetectionSave.py`.

Shallow embedding conventions:
* IEEE doubles are modelled by exact rationals.  `math.sqrt` only occurs inside
  the callback as `math.sqrt(x**2 + y**2 + z**2)`; it is abstracted as a
  function parameter `sqrt : ℚ → ℚ`, and theorems that depend on actual
  square-root values carry hypotheses pinning `sqrt` at the radicands they use.
* Python dicts preserve insertion order; the `nearest` dict is an association
  list whose key order is first-insertion order.
* Python's `sorted` is a stable sort; it is modelled by the stable
  `List.insertionSort`.
* Randomness (`random.shuffle`, `random.choice`) is modelled by taking the
  already-shuffled lists as inputs and a selector function for per-iteration
  choices.
* The CARLA client is the external collaborator.  `apply_batch_sync` returns
  one order-correlated response per submitted command (its documented
  interface), modelled by applying a response function to each command.
  Exceptions raised by the script are `Except.error`.
-/

/-- Claim-relevant data of one semantic LiDAR detection: the cartesian
coordinates and the semantic `object_tag` (source lines 104-112). -/
structure SemPoint where
  x : ℚ
  y : ℚ
  z : ℚ
  tag : ℕ
  deriving DecidableEq, Repr

/-- The `object_id` semantic mapping dict (source lines 48-71), in insertion
order. -/
def object_id : List (String × ℕ) :=
  [("None", 0), ("Buildings", 1), ("Fences", 2), ("Other", 3), ("Pedestrians", 4),
   ("Poles", 5), ("RoadLines", 6), ("Roads", 7), ("Sidewalks", 8), ("Vegetation", 9),
   ("Vehicles", 10), ("Wall", 11), ("TrafficsSigns", 12), ("Sky", 13), ("Ground", 14),
   ("Bridge", 15), ("RailTrack", 16), ("GuardRail", 17), ("TrafficLight", 18),
   ("Static", 19), ("Dynamic", 20), ("Water", 21), ("Terrain", 22)]

/-- Parallel list `key_list = list(object_id.keys())` (source line 72). -/
def key_list : List String := object_id.map Prod.fst

/-- Parallel list `value_list = list(object_id.values())` (source line 73). -/
def value_list : List ℕ := object_id.map Prod.snd

/-- Tag resolution `key_list[value_list.index(tag)]` with the `ValueError`
fallback to `f"Unknown({tag})"` (source lines 129-133).  Python's `list.index`
returns the first index holding `tag` and raises when `tag` is absent. -/
def classifyTag (tag : ℕ) : String :=
  match value_list.findIdx? (fun v => v == tag) with
  | some i => key_list.getD i ""
  | none => "Unknown(" ++ toString tag ++ ")"

/-- Radial distance `math.sqrt(x ** 2 + y ** 2 + z ** 2)` of a detection
(source line 135), with `math.sqrt` abstracted as `sqrt`. -/
def pointDistance (sqrt : ℚ → ℚ) (p : SemPoint) : ℚ :=
  sqrt (p.x ^ 2 + p.y ^ 2 + p.z ^ 2)

/-- One update of the `nearest` dict (source lines 136-137):
`if name not in nearest or distance < nearest[name]: nearest[name] = distance`.
A new key is appended at the end (dict insertion order); updating an existing
key keeps its position. -/
def nearestInsert (m : List (String × ℚ)) (name : String) (d : ℚ) :
    List (String × ℚ) :=
  match m.lookup name with
  | none => m ++ [(name, d)]
  | some d0 =>
    if d < d0 then m.map (fun e => if e.1 = name then (name, d) else e) else m

/-- The `nearest` dict after the detection loop of the callback
(source lines 128-137). -/
def nearestDict (sqrt : ℚ → ℚ) (pts : List SemPoint) : List (String × ℚ) :=
  pts.foldl (fun m p => nearestInsert m (classifyTag p.tag) (pointDistance sqrt p)) []

/-- Decimal rendering of the fractional hundredths, padded to two digits. -/
def pad2 (n : ℕ) : String :=
  if n < 10 then "0" ++ toString n else toString n

/-- Python float formatting `f"{d:.2f}"` (source line 141) on the exact value:
the number rounded to the nearest hundredth, printed with exactly two decimal
digits. -/
def format2f (q : ℚ) : String :=
  if q < 0 then
    "-" ++ toString ((round (-q * 100)).toNat / 100) ++ "." ++
      pad2 ((round (-q * 100)).toNat % 100)
  else
    toString ((round (q * 100)).toNat / 100) ++ "." ++
      pad2 ((round (q * 100)).toNat % 100)

/-- Selection `sorted(nearest.items(), key=lambda x: x[1])[:8]`
(source line 140): a stable sort on the distance component, truncated to the
eight smallest entries. -/
def summaryItems (sqrt : ℚ → ℚ) (pts : List SemPoint) : List (String × ℚ) :=
  (List.insertionSort (fun a b : String × ℚ => a.2 ≤ b.2) (nearestDict sqrt pts)).take 8

/-- The `detections_summary` string (source lines 139-142): initialised to the
empty string and replaced by the comma-joined `name:distance` renderings only
when the `nearest` dict is non-empty. -/
def detectionsSummary (sqrt : ℚ → ℚ) (pts : List SemPoint) : String :=
  if nearestDict sqrt pts = [] then ""
  else String.intercalate ", "
    ((summaryItems sqrt pts).map (fun e => e.1 ++ ":" ++ format2f e.2))

/-- One row of `lidar_points.csv`: `[timestamp, x, y, z, tag]`
(source line 113). -/
structure RawRow where
  timestamp : String
  x : ℚ
  y : ℚ
  z : ℚ
  object_tag : ℕ
  deriving DecidableEq, Repr

/-- Contents of the two append-only CSV logs (headers elided). -/
structure LogState where
  rawLog : List RawRow
  summaryLog : List (String × String)
  deriving DecidableEq, Repr

/-- The LiDAR ingestion callback `semantic_lidar_data` (source lines 99-145):
the arrival timestamp `ts` is `datetime.now()` formatted once at entry
(source line 101); the callback appends one raw row per detection to the raw
log and exactly one `(timestamp, detections_summary)` row to the summary log. -/
def semantic_lidar_data (sqrt : ℚ → ℚ) (ts : String) (pts : List SemPoint)
    (logs : LogState) : LogState :=
  { rawLog := logs.rawLog ++ pts.map (fun p => RawRow.mk ts p.x p.y p.z p.tag)
    summaryLog := logs.summaryLog ++ [(ts, detectionsSummary sqrt pts)] }

/-- Distances of all points of a frame that classify to a given name; the
candidate set over which `nearest[name]` is minimised. -/
def classDistances (sqrt : ℚ → ℚ) (pts : List SemPoint) (name : String) : List ℚ :=
  (pts.filter (fun p => classifyTag p.tag == name)).map (pointDistance sqrt)

/-- Response to one spawn command, as reported by the simulator: CARLA's
`command.Response` carries an `error` string (empty on success) and the created
`actor_id`.  The source tests `if res.error:`, i.e. non-emptiness of the
string. -/
structure SpawnResponse where
  error : String
  actor_id : ℕ
  deriving DecidableEq, Repr

/-- Commands submitted by `spawn_vehicles_batch` (source lines 169-190): one
`SpawnActor(bp, transform).then(SetAutopilot(...))` per spawn point, stopping
once `n_spawn = min(number, len(spawn_points))` commands are collected
(the `if n >= n_spawn: break` guard).  The `random.choice` of a blueprint is
modelled by the selector `pick` applied to the loop index. -/
def spawnBatchCommands {B T : Type} (spawn_points : List T) (number : ℕ)
    (pick : ℕ → B) : List (B × T) :=
  ((spawn_points.take (min number spawn_points.length)).enum).map
    (fun e => (pick e.1, e.2))

/-- The fleet provisioner `spawn_vehicles_batch` (source lines 157-197).  The
two `RuntimeError` raises become `Except.error`.  `apply_batch_sync` responds
to each command in order via `respond` (applied to the command index and the
command).  On the normal path the function yields the warning messages logged
for failed responses together with the collected `spawned_ids`. -/
def spawn_vehicles_batch {B T : Type} (blueprints : List B) (spawn_points : List T)
    (number : ℕ) (pick : ℕ → B) (respond : ℕ → B × T → SpawnResponse)
    (filt : String) : Except String (List String × List ℕ) :=
  if blueprints.isEmpty then
    Except.error ("No vehicle blueprints found for filter: " ++ filt)
  else if spawn_points.length = 0 then
    Except.error "No spawn points in the map"
  else
    let batch := spawnBatchCommands spawn_points number pick
    let responses := batch.enum.map (fun e => respond e.1 e.2)
    Except.ok
      ((responses.filter (fun r => !(r.error == ""))).map (fun r => r.error),
       (responses.filter (fun r => r.error == "")).map (fun r => r.actor_id))

/-- One simulator call made by the cleanup block of `main`
(source lines 259-265). -/
inductive CleanupStep where
  | applyBatchDestroy (ids : List ℕ)
  | destroyActor (actor : ℕ)
  deriving DecidableEq, Repr

/-- Module-level actor bookkeeping of the script: `spawned_vehicle_ids` holds
the fleet, `actor_list` the hero vehicle and the LiDAR sensor
(source lines 74-75). -/
structure ActorState where
  spawned_vehicle_ids : List ℕ
  actor_list : List ℕ
  deriving DecidableEq, Repr

/-- The straight-line program of the `finally` block (source lines 257-266):
one batch `DestroyActor` request covering the whole fleet, then one
`actor.destroy()` per tracked actor in list order.  Every call of the source is
wrapped in its own `try ... except: pass`, recorded by the `true` guard flag. -/
def cleanupProgram (s : ActorState) : List (Bool × CleanupStep) :=
  (true, CleanupStep.applyBatchDestroy s.spawned_vehicle_ids)
    :: s.actor_list.map (fun a => (true, CleanupStep.destroyActor a))

/-- Exception semantics of a straight-line sequence of simulator calls:
`raises` says which calls raise.  A raising call whose step is guarded by
try/except is swallowed and execution continues; a raising unguarded call
aborts the remainder (second component `true` means an exception escaped).
The first component lists the calls actually attempted. -/
def runSteps (raises : CleanupStep → Bool) :
    List (Bool × CleanupStep) → List CleanupStep × Bool
  | [] => ([], false)
  | g :: rest =>
    if raises g.2 && !g.1 then ([g.2], true)
    else (g.2 :: (runSteps raises rest).1, (runSteps raises rest).2)

/-- Execute the cleanup block on the current actor bookkeeping.  The source
never clears `spawned_vehicle_ids` or `actor_list`, so the bookkeeping state
comes back unchanged. -/
def cleanupRun (raises : CleanupStep → Bool) (s : ActorState) :
    (List CleanupStep × Bool) × ActorState :=
  (runSteps raises (cleanupProgram s), s)

/-- Number of individual actor-destroy attempts carried by a list of cleanup
calls: a batch request counts one attempt per id it carries. -/
def destroyAttempts (steps : List CleanupStep) : ℕ :=
  (steps.map (fun st => match st with
    | CleanupStep.applyBatchDestroy ids => ids.length
    | CleanupStep.destroyActor _ => 1)).sum

/-- Key list of the `nearest` dict, in insertion order. -/
def dictKeys (m : List (String × ℚ)) : List String := m.map Prod.fst

/-- First-seen accumulation of a key into a key list: the effect of one
`nearest` update on the dict's key order. -/
def seenInsert (ks : List String) (n : String) : List String :=
  if n ∈ ks then ks else ks ++ [n]

/-- Running minimum of a list of distances on top of an optional current
minimum: the value `nearest[name]` traces while the detection loop runs. -/
def runningMin (o : Option ℚ) (ds : List ℚ) : Option ℚ :=
  ds.foldl (fun acc d => some (match acc with | none => d | some v => min v d)) o

/-- Concrete stand-in for `math.sqrt` pinned at the three radicands of the
specification's first concrete scenario. -/
def sqrtScenario : ℚ → ℚ := fun q =>
  if q = 12.5 ^ 2 + 0 ^ 2 + 0 ^ 2 then 12.5
  else if q = 3.1 ^ 2 + 0 ^ 2 + 0 ^ 2 then 3.1
  else if q = 9 ^ 2 + 0 ^ 2 + 0 ^ 2 then 9 else 0

/-- The three-point frame of the specification's first concrete scenario:
two `Roads` detections at distances 12.50 and 3.10 and one `Vehicles`
detection at distance 9.00. -/
def scenarioFrame : List SemPoint :=
  [SemPoint.mk 12.5 0 0 7, SemPoint.mk 3.1 0 0 7, SemPoint.mk 9 0 0 10]

/-- Splitting a list by a Boolean predicate preserves the total count. -/
theorem length_filter_add_length_filter_not {α : Type} (l : List α) (p : α → Bool) :
    (l.filter p).length + (l.filter (fun a => !(p a))).length = l.length := by
  induction l with
  | nil => rfl
  | cons a l ih =>
    by_cases h : p a = true
    · rw [List.filter_cons_of_pos h, List.filter_cons_of_neg (by simp [h])]
      simp only [List.length_cons]
      omega
    · rw [List.filter_cons_of_neg (by simp [h]), List.filter_cons_of_pos (by simp [h])]
      simp only [List.length_cons]
      omega

/-- Two distinct members of a list occur in one of the two relative orders. -/
theorem pair_sublist_of_mem {α : Type} {l : List α} {a b : α} (ha : a ∈ l) (hb : b ∈ l)
    (hne : a ≠ b) : List.Sublist [a, b] l ∨ List.Sublist [b, a] l := by
  induction l with
  | nil => cases ha
  | cons c l ih =>
    rcases List.mem_cons.mp ha with rfl | ha2
    · have hb2 : b ∈ l := by
        rcases List.mem_cons.mp hb with rfl | h
        · exact absurd rfl hne
        · exact h
      exact Or.inl (List.Sublist.cons₂ a (List.singleton_sublist.mpr hb2))
    · rcases List.mem_cons.mp hb with rfl | hb2
      · exact Or.inr (List.Sublist.cons₂ b (List.singleton_sublist.mpr ha2))
      · rcases ih ha2 hb2 with h | h
        · exact Or.inl (h.cons c)
        · exact Or.inr (h.cons c)

/-- In a duplicate-free list, a two-element sublist determines the index order. -/
theorem indexOf_lt_of_pair_sublist {α : Type} [DecidableEq α] {l : List α} {a b : α}
    (hn : l.Nodup) (h : List.Sublist [a, b] l) : l.indexOf a < l.indexOf b := by
  induction l with
  | nil => exact absurd (List.eq_nil_of_sublist_nil h) (by simp)
  | cons c l ih =>
    cases h with
    | cons _ h2 =>
      have ha : a ∈ l := h2.subset (by simp)
      have hb : b ∈ l := h2.subset (by simp)
      have hca : c ≠ a := fun e => (List.nodup_cons.mp hn).1 (e ▸ ha)
      have hcb : c ≠ b := fun e => (List.nodup_cons.mp hn).1 (e ▸ hb)
      rw [List.indexOf_cons_ne _ hca, List.indexOf_cons_ne _ hcb]
      exact Nat.succ_lt_succ (ih (List.nodup_cons.mp hn).2 h2)
    | cons₂ _ h2 =>
      have hb : b ∈ l := List.singleton_sublist.mp h2
      have hab : a ≠ b := fun e => (List.nodup_cons.mp hn).1 (e ▸ hb)
      rw [List.indexOf_cons_self, List.indexOf_cons_ne _ hab]
      exact Nat.succ_pos _

/-- In a duplicate-free list, both relative orders of a pair force equality. -/
theorem eq_of_pair_sublist_both {α : Type} [DecidableEq α] {l : List α} {a b : α}
    (hn : l.Nodup) (h1 : List.Sublist [a, b] l) (h2 : List.Sublist [b, a] l) : a = b := by
  by_contra hne
  exact absurd (Nat.lt_trans (indexOf_lt_of_pair_sublist hn h1)
    (indexOf_lt_of_pair_sublist hn h2)) (lt_irrefl _)

/-- Duplicate-free lists with the same members have the same length. -/
theorem nodup_length_eq_of_mem_iff {l₁ l₂ : List String} (h1 : l₁.Nodup) (h2 : l₂.Nodup)
    (h : ∀ x, x ∈ l₁ ↔ x ∈ l₂) : l₁.length = l₂.length := by
  rw [← List.toFinset_card_of_nodup h1, ← List.toFinset_card_of_nodup h2]
  congr 1
  exact Finset.ext (fun x => by simpa only [List.mem_toFinset] using h x)

/-- Association-list lookup through a cons cell, phrased with a decidable if. -/
theorem lookup_cons_eq (k : String) (v : ℚ) (m : List (String × ℚ)) (a : String) :
    ((k, v) :: m).lookup a = if a = k then some v else m.lookup a := by
  by_cases h : a = k
  · subst h
    simp [List.lookup_cons]
  · have hb : (a == k) = false := beq_eq_false_iff_ne.mpr h
    simp [List.lookup_cons, hb, h]

/-- Lookup succeeds exactly on the dict's keys. -/
theorem lookup_isSome_iff (m : List (String × ℚ)) (a : String) :
    (m.lookup a).isSome = true ↔ a ∈ dictKeys m := by
  induction m with
  | nil => simp [dictKeys, List.lookup]
  | cons e m ih =>
    rcases e with ⟨k, v⟩
    by_cases h : a = k
    · subst h
      simp [dictKeys, lookup_cons_eq]
    · simp [dictKeys, lookup_cons_eq, h, ih]

/-- One `nearest` update acts on the key order as a first-seen insertion. -/
theorem keys_nearestInsert (m : List (String × ℚ)) (name : String) (d : ℚ) :
    dictKeys (nearestInsert m name d) = seenInsert (dictKeys m) name := by
  unfold seenInsert
  cases h : m.lookup name with
  | none =>
    have hm : ¬ name ∈ dictKeys m := by
      rw [← lookup_isSome_iff, h]
      simp
    have e : nearestInsert m name d = m ++ [(name, d)] := by
      unfold nearestInsert
      rw [h]
    rw [e, if_neg hm]
    unfold dictKeys
    simp
  | some d0 =>
    have hm : name ∈ dictKeys m := by
      rw [← lookup_isSome_iff, h]
      rfl
    have e : nearestInsert m name d =
        if d < d0 then m.map (fun x => if x.1 = name then (name, d) else x) else m := by
      unfold nearestInsert
      rw [h]
    rw [e, if_pos hm]
    by_cases hd : d < d0
    · rw [if_pos hd]
      unfold dictKeys
      rw [List.map_map]
      refine List.map_congr_left (fun x hx => ?_)
      by_cases h1 : x.1 = name <;> simp [h1]
    · rw [if_neg hd]

/-- The detection loop's effect on the key order is the fold of first-seen
insertions of the classified names. -/
theorem keys_nearestFold (sqrt : ℚ → ℚ) (pts : List SemPoint) :
    ∀ m : List (String × ℚ),
      dictKeys (pts.foldl
          (fun mm p => nearestInsert mm (classifyTag p.tag) (pointDistance sqrt p)) m)
        = (pts.map (fun p => classifyTag p.tag)).foldl seenInsert (dictKeys m) := by
  induction pts with
  | nil => intro m; rfl
  | cons p pts ih =>
    intro m
    simp only [List.foldl_cons, List.map_cons]
    rw [ih, keys_nearestInsert]

/-- Membership in a fold of first-seen insertions. -/
theorem mem_seenFold (ns : List String) : ∀ (ks : List String) (x : String),
    x ∈ ns.foldl seenInsert ks ↔ x ∈ ks ∨ x ∈ ns := by
  induction ns with
  | nil => intro ks x; simp
  | cons n ns ih =>
    intro ks x
    simp only [List.foldl_cons, ih, seenInsert]
    by_cases h : n ∈ ks
    · rw [if_pos h]
      constructor
      · rintro (h1 | h1)
        · exact Or.inl h1
        · exact Or.inr (List.mem_cons_of_mem _ h1)
      · rintro (h1 | h1)
        · exact Or.inl h1
        · rcases List.mem_cons.mp h1 with rfl | h2
          · exact Or.inl h
          · exact Or.inr h2
    · rw [if_neg h]
      constructor
      · rintro (h1 | h1)
        · rcases List.mem_append.mp h1 with h2 | h2
          · exact Or.inl h2
          · exact Or.inr (List.mem_cons.mpr (Or.inl (List.mem_singleton.mp h2)))
        · exact Or.inr (List.mem_cons_of_mem _ h1)
      · rintro (h1 | h1)
        · exact Or.inl (List.mem_append.mpr (Or.inl h1))
        · rcases List.mem_cons.mp h1 with rfl | h2
          · exact Or.inl (List.mem_append.mpr (Or.inr (by simp)))
          · exact Or.inr h2

/-- A fold of first-seen insertions preserves freedom from duplicates. -/
theorem nodup_seenFold (ns : List String) : ∀ ks : List String, ks.Nodup →
    (ns.foldl seenInsert ks).Nodup := by
  induction ns with
  | nil => intro ks h; exact h
  | cons n ns ih =>
    intro ks h
    simp only [List.foldl_cons]
    apply ih
    unfold seenInsert
    by_cases hm : n ∈ ks
    · rwa [if_pos hm]
    · rw [if_neg hm]
      simp [List.nodup_append, h, hm]

/-- The `nearest` dict never holds a class name twice. -/
theorem nodup_keys_nearestDict (sqrt : ℚ → ℚ) (pts : List SemPoint) :
    (dictKeys (nearestDict sqrt pts)).Nodup := by
  rw [nearestDict, keys_nearestFold]
  exact nodup_seenFold _ _ (by simp [dictKeys])

/-- The `nearest` dict's keys are exactly the class names present in the frame. -/
theorem mem_keys_nearestDict (sqrt : ℚ → ℚ) (pts : List SemPoint) (x : String) :
    x ∈ dictKeys (nearestDict sqrt pts) ↔ x ∈ pts.map (fun p => classifyTag p.tag) := by
  rw [nearestDict, keys_nearestFold]
  simpa [dictKeys] using mem_seenFold (pts.map fun p => classifyTag p.tag) [] x

/-- Entries of the `nearest` dict are pairwise distinct. -/
theorem nodup_nearestDict (sqrt : ℚ → ℚ) (pts : List SemPoint) :
    (nearestDict sqrt pts).Nodup :=
  List.Nodup.of_map Prod.fst (nodup_keys_nearestDict sqrt pts)

/-- The `nearest` dict has one entry per distinct class name of the frame. -/
theorem length_nearestDict (sqrt : ℚ → ℚ) (pts : List SemPoint) :
    (nearestDict sqrt pts).length = (pts.map (fun p => classifyTag p.tag)).dedup.length := by
  have h1 : (nearestDict sqrt pts).length = (dictKeys (nearestDict sqrt pts)).length := by
    simp [dictKeys]
  rw [h1]
  refine nodup_length_eq_of_mem_iff (nodup_keys_nearestDict sqrt pts) (List.nodup_dedup _)
    (fun x => ?_)
  rw [mem_keys_nearestDict, List.mem_dedup]

/-- Appending a fresh key changes lookup only at that key. -/
theorem lookup_append_new (m : List (String × ℚ)) (name : String) (d : ℚ) (a : String)
    (h : m.lookup name = none) :
    (m ++ [(name, d)]).lookup a = if a = name then some d else m.lookup a := by
  induction m with
  | nil =>
    rw [List.nil_append, lookup_cons_eq]
  | cons e m ih =>
    rcases e with ⟨k, v⟩
    rw [lookup_cons_eq] at h
    by_cases hnk : name = k
    · rw [if_pos hnk] at h
      cases h
    · rw [if_neg hnk] at h
      rw [List.cons_append, lookup_cons_eq, lookup_cons_eq]
      by_cases hak : a = k
      · have han : ¬ a = name := fun e2 => hnk (e2 ▸ hak)
        rw [if_pos hak, if_neg han, if_pos hak]
      · rw [if_neg hak, if_neg hak, ih h]

/-- Overwriting the value at one key changes lookup only at that key. -/
theorem lookup_setMin (m : List (String × ℚ)) (name : String) (d : ℚ) (a : String) :
    (m.map (fun e => if e.1 = name then (name, d) else e)).lookup a =
      if a = name then (m.lookup name).map (fun _ => d) else m.lookup a := by
  induction m with
  | nil => by_cases h : a = name <;> simp [List.lookup, h]
  | cons e m ih =>
    rcases e with ⟨k, v⟩
    by_cases hk : k = name
    · by_cases ha : a = k
      · simp [lookup_cons_eq, hk, ha, ih]
      · have han : ¬ a = name := fun e2 => ha (e2.trans hk.symm)
        simp [lookup_cons_eq, hk, ha, han, ih]
    · by_cases ha : a = k
      · have han : ¬ a = name := fun e2 => hk ((ha.symm.trans e2))
        simp [lookup_cons_eq, hk, ha, han, ih]
      · by_cases han : a = name
        · subst han
          simp [lookup_cons_eq, hk, ha, ih]
        · simp [lookup_cons_eq, hk, ha, han, ih]

/-- Lookup after one `nearest` update: the stored value becomes the minimum of
the old value and the new distance (a strictly smaller distance overwrites,
otherwise the old value stays; a fresh key stores the distance). -/
theorem lookup_nearestInsert (m : List (String × ℚ)) (name : String) (d : ℚ) (a : String) :
    (nearestInsert m name d).lookup a =
      if a = name then
        some (match m.lookup name with | none => d | some v => min v d)
      else m.lookup a := by
  cases h : m.lookup name with
  | none =>
    have e : nearestInsert m name d = m ++ [(name, d)] := by
      unfold nearestInsert
      rw [h]
    rw [e, lookup_append_new m name d a h]
  | some d0 =>
    have e : nearestInsert m name d =
        if d < d0 then m.map (fun x => if x.1 = name then (name, d) else x) else m := by
      unfold nearestInsert
      rw [h]
    rw [e]
    by_cases hd : d < d0
    · rw [if_pos hd, lookup_setMin, h]
      by_cases ha : a = name <;> simp [ha, min_eq_right (le_of_lt hd)]
    · rw [if_neg hd]
      by_cases ha : a = name
      · subst ha
        rw [h, if_pos rfl]
        show some d0 = some (min d0 d)
        rw [min_eq_left (not_lt.mp hd)]
      · rw [if_neg ha]

/-- Lookup after the whole detection loop is the running minimum of the
distances of the points classifying to the queried name. -/
theorem lookup_nearestFold (sqrt : ℚ → ℚ) (pts : List SemPoint) :
    ∀ (m : List (String × ℚ)) (a : String),
      (pts.foldl
          (fun mm p => nearestInsert mm (classifyTag p.tag) (pointDistance sqrt p)) m).lookup a
        = runningMin (m.lookup a)
            ((pts.filter (fun p => classifyTag p.tag == a)).map (pointDistance sqrt)) := by
  induction pts with
  | nil => intro m a; rfl
  | cons p pts ih =>
    intro m a
    simp only [List.foldl_cons]
    rw [ih]
    by_cases h : classifyTag p.tag = a
    · rw [List.filter_cons_of_pos (by simp [h]), List.map_cons]
      unfold runningMin
      rw [List.foldl_cons]
      congr 1
      rw [lookup_nearestInsert, if_pos h.symm, h]
    · rw [List.filter_cons_of_neg (by simp [h])]
      congr 1
      rw [lookup_nearestInsert, if_neg (fun e2 => h e2.symm)]

/-- A running minimum started from a value is a lower bound attained at the
start value or inside the list. -/
theorem runningMin_some (ds : List ℚ) : ∀ (v w : ℚ),
    runningMin (some v) ds = some w → (w = v ∨ w ∈ ds) ∧ w ≤ v ∧ ∀ e ∈ ds, w ≤ e := by
  induction ds with
  | nil =>
    intro v w h
    cases h
    exact ⟨Or.inl rfl, le_refl _, by simp⟩
  | cons d ds ih =>
    intro v w h
    have h2 : runningMin (some (min v d)) ds = some w := h
    obtain ⟨hmem, hle, hall⟩ := ih (min v d) w h2
    refine ⟨?_, le_trans hle (min_le_left v d), ?_⟩
    · rcases hmem with rfl | hm
      · rcases min_choice v d with e2 | e2
        · exact Or.inl e2
        · refine Or.inr ?_
          rw [e2]
          exact List.mem_cons_self _ _
      · exact Or.inr (List.mem_cons_of_mem _ hm)
    · intro e he
      rcases List.mem_cons.mp he with rfl | h3
      · exact le_trans hle (min_le_right v e)
      · exact hall e h3

/-- A running minimum started from nothing computes the minimum of the list. -/
theorem runningMin_none (ds : List ℚ) (w : ℚ) (h : runningMin none ds = some w) :
    w ∈ ds ∧ ∀ e ∈ ds, w ≤ e := by
  cases ds with
  | nil => cases h
  | cons d ds =>
    have h2 : runningMin (some d) ds = some w := h
    obtain ⟨hmem, hle, hall⟩ := runningMin_some ds d w h2
    constructor
    · rcases hmem with rfl | hm
      · exact List.mem_cons_self _ _
      · exact List.mem_cons_of_mem _ hm
    · intro e he
      rcases List.mem_cons.mp he with rfl | h3
      · exact hle
      · exact hall e h3

/-- With duplicate-free keys, membership of an entry determines the lookup. -/
theorem lookup_of_mem_nodup (m : List (String × ℚ)) (a : String) (b : ℚ)
    (hn : (dictKeys m).Nodup) (hm : (a, b) ∈ m) : m.lookup a = some b := by
  induction m with
  | nil => cases hm
  | cons e m ih =>
    rcases e with ⟨k, v⟩
    have hn2 : k ∉ dictKeys m ∧ (dictKeys m).Nodup := by
      simpa [dictKeys] using List.nodup_cons.mp hn
    rcases List.mem_cons.mp hm with he | hm2
    · cases he
      rw [lookup_cons_eq, if_pos rfl]
    · have hk : a ≠ k := by
        intro e2
        subst e2
        exact hn2.1 (List.mem_map_of_mem Prod.fst hm2)
      rw [lookup_cons_eq, if_neg hk]
      exact ih hn2.2 hm2

/-- Running a fully guarded call sequence attempts every call in order and
lets no exception escape, whichever calls raise. -/
theorem runSteps_all_guarded (raises : CleanupStep → Bool) :
    ∀ gs : List (Bool × CleanupStep), (∀ g ∈ gs, g.1 = true) →
      runSteps raises gs = (gs.map Prod.snd, false) := by
  intro gs
  induction gs with
  | nil => intro _; rfl
  | cons g gs ih =>
    intro h
    have hg : g.1 = true := h g (List.mem_cons_self _ _)
    unfold runSteps
    rw [hg]
    simp only [Bool.not_true, Bool.and_false, Bool.false_eq_true, if_false]
    rw [ih (fun x hx => h x (List.mem_cons_of_mem _ hx))]
    simp

/-- Both branches checked, `spawn_vehicles_batch` succeeds and returns the
partition of the responses into warnings and spawned ids. -/
theorem spawn_vehicles_batch_ok {B T : Type} (blueprints : List B) (spawn_points : List T)
    (number : ℕ) (pick : ℕ → B) (respond : ℕ → B × T → SpawnResponse) (filt : String)
    (h1 : ¬ blueprints.isEmpty = true) (h2 : ¬ spawn_points.length = 0) :
    spawn_vehicles_batch blueprints spawn_points number pick respond filt =
      Except.ok
        ((((spawnBatchCommands spawn_points number pick).enum.map
            (fun e => respond e.1 e.2)).filter (fun r => !(r.error == ""))).map
              (fun r => r.error),
         (((spawnBatchCommands spawn_points number pick).enum.map
            (fun e => respond e.1 e.2)).filter (fun r => r.error == "")).map
              (fun r => r.actor_id)) := by
  unfold spawn_vehicles_batch
  rw [if_neg h1, if_neg h2]

/-- A response list splits exactly into its failures and its successes. -/
theorem length_filter_spawn (res : List SpawnResponse) :
    (res.filter (fun r => !(r.error == ""))).length +
      (res.filter (fun r => r.error == "")).length = res.length := by
  induction res with
  | nil => rfl
  | cons r res ih =>
    cases hb : (r.error == "") with
    | true =>
      simp only [List.filter_cons, hb, Bool.not_true, if_false, if_true, List.length_cons,
        Bool.false_eq_true]
      omega
    | false =>
      simp only [List.filter_cons, hb, Bool.not_false, if_true, if_false, List.length_cons,
        Bool.false_eq_true]
      omega

/-- The warning count plus the spawned-id count is the command count. -/
theorem spawn_warnings_ids_length {B T : Type} (spawn_points : List T)
    (number : ℕ) (pick : ℕ → B) (respond : ℕ → B × T → SpawnResponse) :
    ((((spawnBatchCommands spawn_points number pick).enum.map
        (fun e => respond e.1 e.2)).filter (fun r => !(r.error == ""))).map
          (fun r => r.error)).length +
    ((((spawnBatchCommands spawn_points number pick).enum.map
        (fun e => respond e.1 e.2)).filter (fun r => r.error == "")).map
          (fun r => r.actor_id)).length
      = (spawnBatchCommands spawn_points number pick).length := by
  rw [List.length_map, List.length_map, length_filter_spawn, List.length_map,
    List.enum_length]

/-- Claim C1: every ingestion callback invocation on a frame (including the
empty frame) appends one raw-log row per point of the frame and exactly one
summary-log row; for a frame with zero points the appended summary row carries
the empty string rather than being skipped. -/
theorem ingest_row_counts (sqrt : ℚ → ℚ) (ts : String) (pts : List SemPoint)
    (logs : LogState) :
    (semantic_lidar_data sqrt ts pts logs).rawLog.length
        = logs.rawLog.length + pts.length ∧
    (semantic_lidar_data sqrt ts pts logs).summaryLog.length
        = logs.summaryLog.length + 1 ∧
    (pts = [] → (semantic_lidar_data sqrt ts pts logs).summaryLog
        = logs.summaryLog ++ [(ts, "")]) := by
  refine ⟨by simp [semantic_lidar_data], by simp [semantic_lidar_data], fun h => ?_⟩
  subst h
  simp [semantic_lidar_data, detectionsSummary, nearestDict]

/-- Witness for C1: the empty frame appends zero raw rows and exactly one
summary row holding the empty string. -/
theorem ingest_row_counts_witness :
    (semantic_lidar_data id "t" [] (LogState.mk [] [])).rawLog.length = 0 ∧
    (semantic_lidar_data id "t" [] (LogState.mk [] [])).summaryLog = [("t", "")] := by
  constructor
  · have h := (ingest_row_counts id "t" [] (LogState.mk [] [])).1
    simpa using h
  · have h := (ingest_row_counts id "t" [] (LogState.mk [] [])).2.2 rfl
    simpa using h

/-- Claim C10: within one ingestion callback invocation the arrival timestamp
is computed once, so every raw row written for the frame and the single
summary row carry the identical timestamp string. -/
theorem ingest_single_timestamp (sqrt : ℚ → ℚ) (ts : String) (pts : List SemPoint)
    (logs : LogState) :
    ∃ (rows : List RawRow) (row : String × String),
      (semantic_lidar_data sqrt ts pts logs).rawLog = logs.rawLog ++ rows ∧
      (semantic_lidar_data sqrt ts pts logs).summaryLog = logs.summaryLog ++ [row] ∧
      (∀ r ∈ rows, r.timestamp = ts) ∧ row.1 = ts := by
  refine ⟨_, _, rfl, rfl, ?_, rfl⟩
  intro r hr
  obtain ⟨q, _, rfl⟩ := List.mem_map.mp hr
  rfl

/-- Claim C4: a tag absent from the taxonomy registry classifies to the
deterministic name `Unknown(<tag>)` rather than erroring or dropping the
point; such a point still contributes its class to the per-class nearest
ranking and its row to the raw log. -/
theorem unknown_tag_classified (tag : ℕ) (h : ¬ tag ∈ value_list) :
    classifyTag tag = "Unknown(" ++ toString tag ++ ")" ∧
    ∀ (sqrt : ℚ → ℚ) (ts : String) (logs : LogState) (pts : List SemPoint) (p : SemPoint),
      p ∈ pts → p.tag = tag →
        ("Unknown(" ++ toString tag ++ ")") ∈ dictKeys (nearestDict sqrt pts) ∧
        RawRow.mk ts p.x p.y p.z tag ∈ (semantic_lidar_data sqrt ts pts logs).rawLog := by
  have hc : classifyTag tag = "Unknown(" ++ toString tag ++ ")" := by
    unfold classifyTag
    have hf : value_list.findIdx? (fun v => v == tag) = none := by
      rw [List.findIdx?_eq_none_iff]
      intro v hv
      exact beq_eq_false_iff_ne.mpr (fun e2 => h (e2 ▸ hv))
    rw [hf]
  refine ⟨hc, fun sqrt ts logs pts p hp hpt => ⟨?_, ?_⟩⟩
  · rw [mem_keys_nearestDict]
    have hcp : classifyTag p.tag = "Unknown(" ++ toString tag ++ ")" := by rw [hpt, hc]
    exact hcp ▸ List.mem_map_of_mem (fun q => classifyTag q.tag) hp
  · have hm : RawRow.mk ts p.x p.y p.z p.tag ∈
        pts.map (fun q => RawRow.mk ts q.x q.y q.z q.tag) :=
      List.mem_map_of_mem (fun q => RawRow.mk ts q.x q.y q.z q.tag) hp
    rw [hpt] at hm
    show RawRow.mk ts p.x p.y p.z tag ∈
      logs.rawLog ++ pts.map (fun q => RawRow.mk ts q.x q.y q.z q.tag)
    exact List.mem_append.mpr (Or.inr hm)

/-- Witness for C4: tag 99 is not registered, classifies to `Unknown(99)`, and
a single-point frame with that tag surfaces the synthesized class in the
nearest dict. -/
theorem unknown_tag_classified_witness :
    classifyTag 99 = "Unknown(99)" ∧
    "Unknown(99)" ∈ dictKeys (nearestDict id [SemPoint.mk 1 0 0 99]) := by
  have h9 : ¬ (99 ∈ value_list) := by decide
  have e : "Unknown(" ++ toString (99 : ℕ) ++ ")" = "Unknown(99)" := by decide
  constructor
  · rw [← e]
    exact (unknown_tag_classified 99 h9).1
  · rw [← e]
    exact ((unknown_tag_classified 99 h9).2 id "t" (LogState.mk [] [])
      [SemPoint.mk 1 0 0 99] (SemPoint.mk 1 0 0 99) (List.mem_singleton_self _) rfl).1

/-- Claim C6: every submitted spawn batch is partitioned into exactly as many
outcomes as requests: the spawned ids plus the logged warnings account for
every command, for any batch size including zero. -/
theorem spawn_outcomes_partition {B T : Type} (blueprints : List B)
    (spawn_points : List T) (number : ℕ) (pick : ℕ → B)
    (respond : ℕ → B × T → SpawnResponse) (filt : String)
    (warnings : List String) (ids : List ℕ)
    (h : spawn_vehicles_batch blueprints spawn_points number pick respond filt =
      Except.ok (warnings, ids)) :
    warnings.length + ids.length = (spawnBatchCommands spawn_points number pick).length := by
  unfold spawn_vehicles_batch at h
  by_cases h1 : blueprints.isEmpty = true
  · rw [if_pos h1] at h
    cases h
  · rw [if_neg h1] at h
    by_cases h2 : spawn_points.length = 0
    · rw [if_pos h2] at h
      cases h
    · rw [if_neg h2] at h
      simp only [Except.ok.injEq, Prod.mk.injEq] at h
      obtain ⟨hw, hi⟩ := h
      subst hw
      subst hi
      exact spawn_warnings_ids_length spawn_points number pick respond

/-- Witness for C6: a two-command batch with one failure partitions into one
spawned id and one warning. -/
theorem spawn_outcomes_partition_witness :
    (["boom"] : List String).length + ([5] : List ℕ).length
      = (spawnBatchCommands ([10, 11] : List ℕ) 2 (fun _ => (0 : ℕ))).length :=
  spawn_outcomes_partition [0] [10, 11] 2 (fun _ => 0)
    (fun i _ => if i = 0 then SpawnResponse.mk "" 5 else SpawnResponse.mk "boom" 0)
    "vehicle.*" ["boom"] [5] (by rfl)

/-- Claim C7: when the requested count exceeds the available spawn locations,
exactly `min(N, L)` commands are submitted, each with a distinct location
consumed without replacement, and the capping is not reported as an error. -/
theorem spawn_caps_at_available {B T : Type} (blueprints : List B) (spawn_points : List T)
    (number : ℕ) (pick : ℕ → B) (respond : ℕ → B × T → SpawnResponse) (filt : String)
    (hbp : blueprints ≠ []) (hsp : spawn_points ≠ []) :
    (spawnBatchCommands spawn_points number pick).length = min number spawn_points.length ∧
    ((spawnBatchCommands spawn_points number pick) : List (B × T)).map Prod.snd =
      spawn_points.take (min number spawn_points.length) ∧
    (spawn_points.Nodup →
      (((spawnBatchCommands spawn_points number pick) : List (B × T)).map Prod.snd).Nodup) ∧
    ∃ warnings ids,
      spawn_vehicles_batch blueprints spawn_points number pick respond filt =
        Except.ok (warnings, ids) ∧
      warnings.length + ids.length = min number spawn_points.length := by
  have hsnd : ((spawnBatchCommands spawn_points number pick) : List (B × T)).map Prod.snd =
      spawn_points.take (min number spawn_points.length) := by
    unfold spawnBatchCommands
    rw [List.map_map]
    have hc : (Prod.snd ∘ fun e : ℕ × T => (pick e.1, e.2)) = Prod.snd := by
      funext e
      rfl
    rw [hc, List.enum_map_snd]
  have hlen : (spawnBatchCommands spawn_points number pick).length
      = min number spawn_points.length := by
    unfold spawnBatchCommands
    rw [List.length_map, List.enum_length, List.length_take]
    exact min_eq_left (min_le_right number spawn_points.length)
  have h1 : ¬ blueprints.isEmpty = true := by
    simpa [List.isEmpty_iff] using hbp
  have h2 : ¬ spawn_points.length = 0 := by
    simpa [List.length_eq_zero] using hsp
  refine ⟨hlen, hsnd, fun hnd => ?_, ?_⟩
  · rw [hsnd]
    exact List.Nodup.sublist (List.take_sublist _ _) hnd
  · refine ⟨_, _, spawn_vehicles_batch_ok blueprints spawn_points number pick respond
      filt h1 h2, ?_⟩
    rw [spawn_warnings_ids_length spawn_points number pick respond, hlen]

/-- Witness for C7 (concrete scenario 2): a batch of 5 requests against 3 free
spawn locations succeeds with exactly 3 outcomes, not 5. -/
theorem spawn_caps_at_available_witness :
    ∃ warnings ids,
      spawn_vehicles_batch [0] ([1, 2, 3] : List ℕ) 5 (fun _ => (0 : ℕ))
          (fun i _ => SpawnResponse.mk "" i) "vehicle.*" = Except.ok (warnings, ids) ∧
      warnings.length + ids.length = 3 := by
  have h := (spawn_caps_at_available [0] ([1, 2, 3] : List ℕ) 5 (fun _ => (0 : ℕ))
    (fun i _ => SpawnResponse.mk "" i) "vehicle.*" (by decide) (by decide)).2.2.2
  simpa using h

/-- Claim C9: an empty blueprint catalog or a map with zero spawn locations
makes fleet provisioning raise (an `Except.error`), and the error propagates
through any continuation, so the main loop is never entered on that path. -/
theorem spawn_setup_failure_fatal {B T : Type} (blueprints : List B) (spawn_points : List T)
    (number : ℕ) (pick : ℕ → B) (respond : ℕ → B × T → SpawnResponse) (filt : String)
    (h : blueprints = [] ∨ spawn_points = []) :
    ∃ msg, spawn_vehicles_batch blueprints spawn_points number pick respond filt =
        Except.error msg ∧
      ∀ mainLoop : List String × List ℕ → Except String Unit,
        (spawn_vehicles_batch blueprints spawn_points number pick respond filt >>= mainLoop)
          = Except.error msg := by
  have key : ∃ msg, spawn_vehicles_batch blueprints spawn_points number pick respond filt =
      Except.error msg := by
    by_cases h1 : blueprints.isEmpty = true
    · refine ⟨"No vehicle blueprints found for filter: " ++ filt, ?_⟩
      unfold spawn_vehicles_batch
      rw [if_pos h1]
    · have h2 : spawn_points.length = 0 := by
        rcases h with hb | hs
        · exact absurd (by simp [hb]) h1
        · simp [hs]
      refine ⟨"No spawn points in the map", ?_⟩
      unfold spawn_vehicles_batch
      rw [if_neg h1, if_pos h2]
  obtain ⟨msg, he⟩ := key
  refine ⟨msg, he, fun mainLoop => ?_⟩
  rw [he]
  rfl

/-- Witness for C9: with an empty blueprint catalog, provisioning returns an
error and no continuation after it ever runs. -/
theorem spawn_setup_failure_fatal_witness :
    ∃ msg, spawn_vehicles_batch ([] : List ℕ) ([1] : List ℕ) 3 (fun _ => (0 : ℕ))
        (fun _ _ => SpawnResponse.mk "" 0) "vehicle.*" = Except.error msg ∧
      ∀ mainLoop : List String × List ℕ → Except String Unit,
        (spawn_vehicles_batch ([] : List ℕ) ([1] : List ℕ) 3 (fun _ => (0 : ℕ))
          (fun _ _ => SpawnResponse.mk "" 0) "vehicle.*" >>= mainLoop)
          = Except.error msg :=
  spawn_setup_failure_fatal [] [1] 3 (fun _ => (0 : ℕ))
    (fun _ _ => SpawnResponse.mk "" 0) "vehicle.*" (Or.inl rfl)

/-- Claim C8: whatever destroy calls fail, teardown attempts the fleet batch
destroy first and then every individually tracked actor in order; each failure
is swallowed in isolation, no exception escapes, and no failing destroy
prevents attempting the remaining destroys. -/
theorem teardown_best_effort (raises : CleanupStep → Bool) (s : ActorState) :
    (cleanupRun raises s).1 =
      (CleanupStep.applyBatchDestroy s.spawned_vehicle_ids
        :: s.actor_list.map CleanupStep.destroyActor, false) := by
  have hg : ∀ g ∈ cleanupProgram s, g.1 = true := by
    intro g hgm
    rcases List.mem_cons.mp hgm with rfl | h2
    · rfl
    · obtain ⟨a, _, rfl⟩ := List.mem_map.mp h2
      rfl
  have e : (cleanupRun raises s).1 = runSteps raises (cleanupProgram s) := rfl
  rw [e, runSteps_all_guarded raises _ hg]
  unfold cleanupProgram
  simp

/-- Claim C5 counterexample: from the state teardown leaves behind (one fleet
vehicle, one tracked actor), a second invocation performs two destroy attempts
again, not zero: the claim that a repeated shutdown produces no additional
destroy attempts fails on the code, because the bookkeeping lists are never
cleared. -/
theorem teardown_not_idempotent_counterexample :
    destroyAttempts (cleanupRun (fun _ => false)
        ((cleanupRun (fun _ => false) (ActorState.mk [1] [2])).2)).1.1 = 2 ∧
    (2 : ℕ) ≠ 0 := by
  constructor
  · rfl
  · decide

/-- Claim C5 amended: invoking the teardown block twice raises no error, and
the second invocation repeats exactly the destroy attempts of the first
because the actor bookkeeping is not cleared; teardown on an already-empty
registry performs zero destroy attempts. -/
theorem teardown_rerun_behaviour (raises : CleanupStep → Bool) (s : ActorState) :
    (cleanupRun raises ((cleanupRun raises s).2)).1 = (cleanupRun raises s).1 ∧
    (cleanupRun raises s).1.2 = false ∧
    (s.spawned_vehicle_ids = [] → s.actor_list = [] →
      destroyAttempts (cleanupRun raises s).1.1 = 0) := by
  have hg : ∀ g ∈ cleanupProgram s, g.1 = true := by
    intro g hgm
    rcases List.mem_cons.mp hgm with rfl | h2
    · rfl
    · obtain ⟨a, _, rfl⟩ := List.mem_map.mp h2
      rfl
  refine ⟨rfl, ?_, ?_⟩
  · have e : (cleanupRun raises s).1 = runSteps raises (cleanupProgram s) := rfl
    rw [e, runSteps_all_guarded raises _ hg]
  · intro h1 h2
    have e : (cleanupRun raises s).1 = runSteps raises (cleanupProgram s) := rfl
    rw [e, runSteps_all_guarded raises _ hg]
    rcases s with ⟨sv, al⟩
    have h1a : sv = [] := h1
    have h2a : al = [] := h2
    subst h1a
    subst h2a
    rfl

/-- Witness for the amended C5: teardown of an empty registry performs zero
destroy attempts. -/
theorem teardown_rerun_behaviour_witness :
    destroyAttempts (cleanupRun (fun _ => false) (ActorState.mk [] [])).1.1 = 0 :=
  (teardown_rerun_behaviour (fun _ => false) (ActorState.mk [] [])).2.2 rfl rfl

/-- Claim C2: for every classified frame the emitted summary list has
non-decreasing distances, its length is `min(8, number of distinct class names
present in the frame)`, and entries with equal distances appear in first-seen
class order, i.e. in the order of the `nearest` dict (the sort is stable). -/
theorem summary_sorted_length_stable (sqrt : ℚ → ℚ) (pts : List SemPoint) :
    List.Pairwise (fun a b : String × ℚ => a.2 ≤ b.2) (summaryItems sqrt pts) ∧
    (summaryItems sqrt pts).length
        = min 8 ((pts.map (fun p => classifyTag p.tag)).dedup.length) ∧
    (∀ a b : String × ℚ, List.Sublist [a, b] (summaryItems sqrt pts) → a.2 = b.2 →
      List.Sublist [a, b] (nearestDict sqrt pts)) := by
  haveI : IsTotal (String × ℚ) (fun a b : String × ℚ => a.2 ≤ b.2) :=
    ⟨fun a b => le_total a.2 b.2⟩
  haveI : IsTrans (String × ℚ) (fun a b : String × ℚ => a.2 ≤ b.2) :=
    ⟨fun _ _ _ hab hbc => le_trans hab hbc⟩
  have hsorted : List.Pairwise (fun a b : String × ℚ => a.2 ≤ b.2)
      (List.insertionSort (fun a b : String × ℚ => a.2 ≤ b.2) (nearestDict sqrt pts)) :=
    List.sorted_insertionSort (fun a b : String × ℚ => a.2 ≤ b.2) (nearestDict sqrt pts)
  refine ⟨List.Pairwise.sublist (List.take_sublist 8 _) hsorted, ?_, ?_⟩
  · have hlen : (summaryItems sqrt pts).length = min 8 (nearestDict sqrt pts).length := by
      unfold summaryItems
      rw [List.length_take, (List.perm_insertionSort _ _).length_eq]
    rw [hlen, length_nearestDict]
  · intro a b hab heq
    have hs : List.Sublist [a, b]
        (List.insertionSort (fun a b : String × ℚ => a.2 ≤ b.2) (nearestDict sqrt pts)) :=
      hab.trans (List.take_sublist 8 _)
    have hnd : (nearestDict sqrt pts).Nodup := nodup_nearestDict sqrt pts
    have hnds : (List.insertionSort (fun a b : String × ℚ => a.2 ≤ b.2)
        (nearestDict sqrt pts)).Nodup :=
      ((List.perm_insertionSort _ _).nodup_iff).mpr hnd
    have hamem : a ∈ nearestDict sqrt pts :=
      (List.perm_insertionSort _ _).mem_iff.mp (hs.subset (by simp))
    have hbmem : b ∈ nearestDict sqrt pts :=
      (List.perm_insertionSort _ _).mem_iff.mp (hs.subset (by simp))
    have hlt := indexOf_lt_of_pair_sublist hnds hs
    have hne : a ≠ b := by
      intro e2
      rw [e2] at hlt
      exact lt_irrefl _ hlt
    rcases pair_sublist_of_mem hamem hbmem hne with hgood | hbad
    · exact hgood
    · have hpair : List.Pairwise (fun x y : String × ℚ => x.2 ≤ y.2) [b, a] := by
        refine List.Pairwise.cons ?_ (List.pairwise_singleton _ _)
        intro y hy
        rw [List.mem_singleton.mp hy]
        exact le_of_eq heq.symm
      have hs2 : List.Sublist [b, a]
          (List.insertionSort (fun a b : String × ℚ => a.2 ≤ b.2) (nearestDict sqrt pts)) :=
        List.sublist_insertionSort hpair hbad
      exact absurd (eq_of_pair_sublist_both hnds hs hs2) hne

set_option maxRecDepth 100000 in
/-- Witness for C2: a two-class frame at equal distance 9 keeps both entries in
first-seen order, and its summary has length `min(8, 2) = 2`. -/
theorem summary_sorted_length_stable_witness :
    List.Sublist [(("Buildings" : String), (9 : ℚ)), ("Fences", 9)]
      (nearestDict id [SemPoint.mk 3 0 0 1, SemPoint.mk 3 0 0 2]) ∧
    (summaryItems id [SemPoint.mk 3 0 0 1, SemPoint.mk 3 0 0 2]).length = 2 := by
  have e : summaryItems id [SemPoint.mk 3 0 0 1, SemPoint.mk 3 0 0 2]
      = [("Buildings", 9), ("Fences", 9)] := by
    with_unfolding_all decide
  constructor
  · have hsub : List.Sublist [(("Buildings" : String), (9 : ℚ)), ("Fences", 9)]
        (summaryItems id [SemPoint.mk 3 0 0 1, SemPoint.mk 3 0 0 2]) := by
      rw [e]
    exact (summary_sorted_length_stable id
      [SemPoint.mk 3 0 0 1, SemPoint.mk 3 0 0 2]).2.2 _ _ hsub rfl
  · have h := (summary_sorted_length_stable id
      [SemPoint.mk 3 0 0 1, SemPoint.mk 3 0 0 2]).2.1
    rw [h]
    with_unfolding_all decide

set_option maxRecDepth 100000 in
/-- Claim C3: every emitted summary entry's distance is the minimum computed
radial distance over the frame's points of that class, and the concrete
scenario of two `Roads` points at distances 12.50 and 3.10 plus one `Vehicles`
point at 9.00 with k = 8 renders, each entry as `name:distance` with the
distance printed to two decimal places, as `"Roads:3.10, Vehicles:9.00"`. -/
theorem summary_min_distance_scenario :
    (∀ (sqrt : ℚ → ℚ) (pts : List SemPoint) (name : String) (d : ℚ),
      (name, d) ∈ summaryItems sqrt pts →
        d ∈ classDistances sqrt pts name ∧ ∀ e ∈ classDistances sqrt pts name, d ≤ e) ∧
    (∀ sqrt : ℚ → ℚ,
      sqrt (12.5 ^ 2 + 0 ^ 2 + 0 ^ 2) = 12.5 →
      sqrt (3.1 ^ 2 + 0 ^ 2 + 0 ^ 2) = 3.1 →
      sqrt (9 ^ 2 + 0 ^ 2 + 0 ^ 2) = 9 →
      detectionsSummary sqrt scenarioFrame = "Roads:3.10, Vehicles:9.00") := by
  constructor
  · intro sqrt pts name d hmem
    have hmem2 : (name, d) ∈ nearestDict sqrt pts := by
      have hin : (name, d) ∈
          List.insertionSort (fun a b : String × ℚ => a.2 ≤ b.2) (nearestDict sqrt pts) :=
        (List.take_sublist 8 _).subset hmem
      exact (List.perm_insertionSort _ _).mem_iff.mp hin
    have hlook : (nearestDict sqrt pts).lookup name = some d :=
      lookup_of_mem_nodup _ name d (nodup_keys_nearestDict sqrt pts) hmem2
    have hchar : (nearestDict sqrt pts).lookup name = runningMin none
        ((pts.filter (fun p => classifyTag p.tag == name)).map (pointDistance sqrt)) :=
      lookup_nearestFold sqrt pts [] name
    rw [hlook] at hchar
    exact runningMin_none _ d hchar.symm
  · intro sqrt h1 h2 h3
    have hd1 : pointDistance sqrt (SemPoint.mk 12.5 0 0 7) = 12.5 := by
      unfold pointDistance
      exact h1
    have hd2 : pointDistance sqrt (SemPoint.mk 3.1 0 0 7) = 3.1 := by
      unfold pointDistance
      exact h2
    have hd3 : pointDistance sqrt (SemPoint.mk 9 0 0 10) = 9 := by
      unfold pointDistance
      exact h3
    have hn : nearestDict sqrt scenarioFrame = [("Roads", (3.1 : ℚ)), ("Vehicles", 9)] := by
      unfold scenarioFrame nearestDict
      simp only [List.foldl_cons, List.foldl_nil]
      rw [hd1, hd2, hd3]
      with_unfolding_all decide
    unfold detectionsSummary summaryItems
    rw [hn]
    with_unfolding_all decide

set_option maxRecDepth 100000 in
/-- Witness for C3: the concrete square root pinned at the three scenario
radicands produces the scenario string, and the summary's `Roads` distance 3.10
is the minimum over the frame's `Roads` points. -/
theorem summary_min_distance_scenario_witness :
    detectionsSummary sqrtScenario scenarioFrame = "Roads:3.10, Vehicles:9.00" ∧
    ((3.1 : ℚ) ∈ classDistances sqrtScenario scenarioFrame "Roads" ∧
      ∀ e ∈ classDistances sqrtScenario scenarioFrame "Roads", (3.1 : ℚ) ≤ e) := by
  constructor
  · exact summary_min_distance_scenario.2 sqrtScenario
      (by with_unfolding_all decide) (by with_unfolding_all decide)
      (by with_unfolding_all decide)
  · exact summary_min_distance_scenario.1 sqrtScenario scenarioFrame "Roads" 3.1
      (by with_unfolding_all decide)
